import Mathlib

/-!
# tfsinfo2html: the report pipeline of `main.go`

A shallow embedding of `src/main.go`: the wire records, the loop that builds the
work-item report map, the fixed `html/template` and its execution, and the
straight-line pipeline of `main` and `init_config` over an explicit description of
what the outside world answers (flags, config file, HTTP service, file system).

Go values are modelled as follows.
* `string` is `String`.  Titles come out of `encoding/json`, which replaces invalid
  UTF-8 by U+FFFD, so every title is a sequence of Unicode scalar values.
* `int` is `Int`.  Identifiers are only compared, never computed with, so the machine
  width plays no role.
* `map[int]string` is an association list with at most one entry per key.  The order of
  the entries stands for the unspecified internal order of the hash map; nothing
  observable may depend on it.
-/

set_option maxRecDepth 20000

namespace TfsInfo2Html

/-! ## Wire records (main.go lines 22-45) -/

/-- TfsRequest represents a request to get TFS information (main.go lines 22-30). -/
structure TfsRequest where
  TfsUrl : String
  ProjectUrl : String
  UserName : String
  Password : String
  StartDate : String
  EndDate : String
  deriving DecidableEq, Repr

/-- WorkItem as decoded from the service response (main.go lines 40-45). -/
structure WorkItem where
  Title : String
  Id : Int
  CreatedBy : String
  CreatedDate : String
  deriving DecidableEq, Repr

/-- ChangesetInfo as decoded from the service response (main.go lines 32-38). -/
structure ChangesetInfo where
  Id : Int
  Comments : String
  CommittedBy : String
  CommittedDate : String
  WorkItems : List WorkItem
  deriving DecidableEq, Repr

/-! ## The report map (main.go lines 89-95) -/

/-- Go `map[int]string`: finitely many entries, at most one per key. -/
abbrev GoMap := AList (fun _ : Int => String)

/-- The Go expression `make(map[int]string)`. -/
def GoMap.make : GoMap := ∅

/-- The Go statement `m[k] = v`: the entry for `k` is created or overwritten. -/
def GoMap.assign (m : GoMap) (k : Int) (v : String) : GoMap := m.insert k v

/-- The Go expression `v, ok := m[k]`. -/
def GoMap.get (m : GoMap) (k : Int) : Option String := m.lookup k

/-- The Go expression `len(m)`. -/
def GoMap.len (m : GoMap) : Nat := m.entries.length

/-- Inner loop of lines 92-94: `for _, w := range c.WorkItems { reportwi[w.Id] = w.Title }`. -/
def assignWorkItems (reportwi : GoMap) (ws : List WorkItem) : GoMap :=
  ws.foldl (fun m w => m.assign w.Id w.Title) reportwi

/-- Lines 90-95: the map of relevant work items built from the decoded response. -/
def reportwi (retval : List ChangesetInfo) : GoMap :=
  retval.foldl (fun m c => assignWorkItems m c.WorkItems) GoMap.make

/-- The work items of a response in traversal order: change records in response order,
and inside a record the work items in sequence order. -/
def traversal (retval : List ChangesetInfo) : List WorkItem :=
  retval.flatMap (fun c => c.WorkItems)

/-! ## The template (main.go lines 97-111)

The program imports `html/template`.  The template text of lines 99-102 is, byte for byte,
a newline, the action `{{range $key, $value := .}}`, a newline, a tab, `<li>TFS `,
the action `{{$key}}`, ` - `, the action `{{$value}}`, `</li>`, a newline and `{{end}}`.
Both actions stand in HTML text context, where `html/template` pipes the value through
its `htmlEscaper`. -/

/-- A node of the body of a `range $key, $value := .` action. -/
inductive BodyNode where
  | text (s : String)
  | key
  | value
  deriving DecidableEq, Repr

/-- A top-level node of a parsed template. -/
inductive Node where
  | text (s : String)
  | range (body : List BodyNode)
  deriving DecidableEq, Repr

/-- A parsed template: its nodes in source order. -/
abbrev Template := List Node

/-- The parse tree of the template literal of lines 99-102. -/
def tfsInfoTemplate : Template :=
  [ .text "\n",
    .range [ .text "\n\t<li>TFS ", .key, .text " - ", .value, .text "</li>\n" ] ]

/-- The table `htmlReplacementTable` of `html/template`: the characters that are replaced
in HTML text, each with its replacement.  The entries are NUL, the double quote (code 34),
the ampersand, the single quote (code 39), the plus sign and the two angle brackets. -/
def htmlReplacementTable (c : Char) : Option String :=
  if c = Char.ofNat 0 then some "\uFFFD"
  else if c = Char.ofNat 34 then some "&#34;"
  else if c = '&' then some "&amp;"
  else if c = Char.ofNat 39 then some "&#39;"
  else if c = '+' then some "&#43;"
  else if c = '<' then some "&lt;"
  else if c = '>' then some "&gt;"
  else none

/-- The loop of `htmlReplacer` of `html/template` (with `badRunes` set, as `htmlEscaper`
calls it): a character with an entry in the table is replaced, every other one is copied. -/
def htmlReplacer : List Char → List Char
  | [] => []
  | c :: cs =>
    (match htmlReplacementTable c with
      | some repl => repl.data
      | none => [c]) ++ htmlReplacer cs

/-- The escaper `htmlEscaper` of `html/template` on a plain string. -/
def htmlEscaper (s : String) : String := ⟨htmlReplacer s.data⟩

/-- Decimal text of a Go `int`, as `fmt.Sprint` prints it: a minus sign for a negative
number, then the digits. -/
def formatInt : Int → String
  | .ofNat n => Nat.repr n
  | .negSucc n => "-" ++ Nat.repr (n + 1)

/-- Execution of one body node with `$key` and `$value` bound. -/
def execBodyNode (k : Int) (v : String) : BodyNode → String
  | .text s => s
  | .key => htmlEscaper (formatInt k)
  | .value => htmlEscaper v

/-- Execution of a range body for one map entry: the nodes write in source order. -/
def execBody (k : Int) (v : String) : List BodyNode → String
  | [] => ""
  | n :: ns => execBodyNode k v n ++ execBody k v ns

/-- The order in which a template ranges over a map: `text/template` sorts the entries by
key (package `fmtsort`, a stable sort on the keys, which are integers here). -/
def sortedEntries (m : GoMap) : List (Sigma fun _ : Int => String) :=
  m.entries.insertionSort (fun a b => a.1 ≤ b.1)

/-- Execution of the body once per entry, in the given order. -/
def execEntries (body : List BodyNode) : List (Sigma fun _ : Int => String) → String
  | [] => ""
  | e :: es => execBody e.1 e.2 body ++ execEntries body es

/-- Execution of one top-level node with the map as dot.  An empty map runs the (absent)
else branch of `range`, which writes nothing. -/
def execNode (dot : GoMap) : Node → String
  | .text s => s
  | .range body => execEntries body (sortedEntries dot)

/-- The call `t.Execute(buff, reportwi)`: the text written to the buffer. -/
def Execute : Template → GoMap → String
  | [], _ => ""
  | n :: ns, dot => execNode dot n ++ Execute ns dot

/-- The text that lines 97-111 leave in `buff` for a decoded response. -/
def render (retval : List ChangesetInfo) : String :=
  Execute tfsInfoTemplate (reportwi retval)

/-! ## The pipeline (main.go lines 47-150)

`main` talks to the outside world through `pflag`, `viper`, `encoding/json`, `net/http`
and `os`.  A `World` fixes what each of those calls answers; `main` is then a function
from the world to the sequence of observable events and the way the process ends. -/

/-- The pair `(res, err)` returned by `http.Post`.  `res` is the body of the response, or
`none` for a `nil` response, which is what a transport failure returns. -/
structure PostResult where
  res : Option String
  err : Option String
  deriving DecidableEq, Repr

/-- The answers of the outside world to the calls of one run. -/
structure World where
  /-- The `pflag.Parse()` call: the exit status when the command line is rejected. -/
  flagsExit : Option Nat
  /-- The `viper.ReadInConfig()` call: its error, if any. -/
  readInConfig : Option String
  /-- The `viper.GetString(key)` call on the merged settings. -/
  getString : String → String
  /-- The `json.NewEncoder(requestBytes).Encode(&request)` call: the bytes or the error. -/
  encode : TfsRequest → Except String String
  /-- The `http.Post(url, contentType, body)` call. -/
  post : String → String → String → PostResult
  /-- The `json.NewDecoder(res.Body).Decode(&retval)` call on a response body. -/
  decode : String → Except String (List ChangesetInfo)
  /-- The `os.Create(path)` call: its error, if any. -/
  create : String → Option String

/-- An observable step of a run.  A `log` carries the line handed to the standard logger,
without the time stamp and the final newline. -/
inductive Event where
  | log (msg : String)
  | post (url contentType body : String)
  | create (path : String)
  | write (path text : String)
  | sync (path : String)
  | closeFile (path : String)
  | closeBody
  deriving DecidableEq, Repr

/-- How a run (or a call) ends. -/
inductive Outcome where
  /-- The function returns normally. -/
  | returned
  /-- The call `os.Exit(code)`, issued by `pflag` on a rejected command line. -/
  | exited (code : Nat)
  /-- A panic raised by `log.Panicf` with the given message. -/
  | logPanic (msg : String)
  /-- The Go runtime panic "invalid memory address or nil pointer dereference". -/
  | nilDereference
  deriving DecidableEq, Repr

/-- The events of a run in order, and its end. -/
structure Run where
  events : List Event
  outcome : Outcome
  deriving DecidableEq, Repr

/-- The function `init_config` (lines 124-150).  Setting defaults and search paths has no
observable effect of its own; their result is the `getString` of the world. -/
def init_config (w : World) : Run :=
  let ev := [Event.log "[INFO] Initializing configuration..."]
  match w.flagsExit with
  | some code => ⟨ev, .exited code⟩
  | none =>
    match w.readInConfig with
    | some err =>
      let msg := "[FATAL] There was a problem with your config file: " ++ err
      ⟨ev ++ [.log msg], .logPanic msg⟩
    | none => ⟨ev, .returned⟩

/-- The request of lines 57-64, read from the settings. -/
def buildRequest (getString : String → String) : TfsRequest :=
  { TfsUrl := getString "tfsrequest.tfsurl"
    ProjectUrl := getString "tfsrequest.projecturl"
    UserName := getString "tfsrequest.user"
    Password := getString "tfsrequest.password"
    StartDate := getString "tfsrequest.startdate"
    EndDate := getString "tfsrequest.enddate" }

/-- The call `t.Parse` of lines 99-102 on the fixed literal: it yields the parse tree and
no error. -/
def parseTFSInfo : Except String Template := .ok tfsInfoTemplate

/-- Lines 113-121: save the buffer to the file.  `closeBody` is the deferred
`res.Body.Close()`; the deferred `f.Close()` on the `nil` file of a failed `os.Create`
has no effect. -/
def saveToFile (w : World) (ev : List Event) (buff : String) : Run :=
  let path := w.getString "savetofile"
  let ev := ev ++ [.log ("[INFO] Saving to file: " ++ path), .create path]
  match w.create path with
  | some err => ⟨ev ++ [.log ("[FATAL] " ++ err), .closeBody], .logPanic ("[FATAL] " ++ err ++ "\n")⟩
  | none => ⟨ev ++ [.write path buff, .sync path, .closeFile path, .closeBody], .returned⟩

/-- Lines 86-121: everything after a successful decode. -/
def formatAndSave (w : World) (ev : List Event) (retval : List ChangesetInfo) : Run :=
  let ev := ev ++ [.log ("[INFO] Got " ++ Nat.repr retval.length ++
    " items back.  Formatting using template...")]
  let reportwi := reportwi retval
  match parseTFSInfo with
  | .error err => ⟨ev ++ [.log ("[FATAL] " ++ err), .closeBody], .logPanic ("[FATAL] " ++ err ++ "\n")⟩
  | .ok t =>
    -- line 111: the error result of `t.Execute` is not looked at
    let buff := Execute t reportwi
    saveToFile w ev buff

/-- The function `main` (lines 47-122). -/
def main (w : World) : Run :=
  let r := init_config w
  match r.outcome with
  | .returned =>
    let serviceurl := w.getString "tfsrequest.serviceurl"
    let ev := r.events ++ [.log ("[INFO] Using serviceUrl: " ++ serviceurl)]
    let request := buildRequest w.getString
    match w.encode request with
    | .error err => ⟨ev ++ [.log ("[FATAL] " ++ err)], .logPanic ("[FATAL] " ++ err ++ "\n")⟩
    | .ok requestJSON =>
      let ev := ev ++ [.log "[INFO] Calling service...",
        .post serviceurl "application/json" requestJSON]
      -- line 78: `err` is assigned and not looked at before line 79
      match (w.post serviceurl "application/json" requestJSON).res with
      | none =>
        -- line 79: `defer res.Body.Close()` evaluates `res.Body` on the nil response
        ⟨ev, .nilDereference⟩
      | some body =>
        match w.decode body with
        | .error err =>
          ⟨ev ++ [.log ("[FATAL] " ++ err), .closeBody], .logPanic ("[FATAL] " ++ err ++ "\n")⟩
        | .ok retval => formatAndSave w ev retval
  | _ => r

/-! ## Vocabulary of the statements about the output -/

/-- The list entry `<li>TFS id - title</li>` for an identifier and a title text. -/
def listItem (id : Int) (title : String) : String :=
  "<li>TFS " ++ formatInt id ++ " - " ++ title ++ "</li>"

/-- The text the template writes for one map entry: a newline, a tab, the list entry with
the escaped title, a newline. -/
def entryBlock (e : Sigma fun _ : Int => String) : String :=
  "\n\t" ++ listItem e.1 (htmlEscaper e.2) ++ "\n"

/-- Concatenation of texts in order. -/
def concat (ss : List String) : String := ss.foldr (fun s acc => s ++ acc) ""

/-- The text `sub` occurs in the text `out` as a contiguous piece. -/
def Contains (out sub : String) : Prop := sub.data <:+: out.data

instance (out sub : String) : Decidable (Contains out sub) :=
  inferInstanceAs (Decidable (sub.data <:+: out.data))

/-- The lines of a text: every newline ends a line, and a last piece without a newline
is a line as well. -/
def linesOf : List Char → List (List Char)
  | [] => []
  | c :: cs =>
    if c = '\n' then [] :: linesOf cs
    else
      match linesOf cs with
      | [] => [[c]]
      | l :: ls => (c :: l) :: ls

/-- The layout "one leading blank line followed by exactly `K` lines and no further blank
line": the first line is empty, `K` lines follow, and none of them is empty. -/
def OneBlankThenLines (K : Nat) (out : String) : Prop :=
  (linesOf out.data).head? = some []
    ∧ (linesOf out.data).tail.length = K
    ∧ ∀ l ∈ (linesOf out.data).tail, l ≠ []

instance (K : Nat) (out : String) : Decidable (OneBlankThenLines K out) := by
  unfold OneBlankThenLines
  infer_instance

/-! ## Sample responses -/

/-- A work item with the given identifier and title. -/
def workItem (id : Int) (title : String) : WorkItem :=
  { Title := title, Id := id, CreatedBy := "", CreatedDate := "" }

/-- A change record with the given identifier and work items. -/
def changeset (id : Int) (ws : List WorkItem) : ChangesetInfo :=
  { Id := id, Comments := "", CommittedBy := "", CommittedDate := "", WorkItems := ws }

/-- The two-changeset response with work items 10, 10, 11 and consistent titles. -/
def exampleResponse : List ChangesetInfo :=
  [ changeset 1 [workItem 10 "Fix bug"],
    changeset 2 [workItem 10 "Fix bug", workItem 11 "Add feature"] ]

/-- A response in which work item 10 comes with two different titles. -/
def conflictingResponse : List ChangesetInfo :=
  [ changeset 1 [workItem 10 "Fix bug"],
    changeset 2 [workItem 10 "Fix the bug", workItem 11 "Add feature"] ]

/-- A response with a single work item. -/
def singleItemResponse : List ChangesetInfo :=
  [ changeset 1 [workItem 10 "Fix bug"] ]

/-- A response whose work item has a title with markup characters. -/
def markupResponse : List ChangesetInfo :=
  [ changeset 1 [workItem 7 "a<b"] ]

/-- The work items 11 and 10 arriving in descending order inside one change record. -/
def descendingResponse : List ChangesetInfo :=
  [ changeset 1 [workItem 11 "Add feature", workItem 10 "Fix bug"] ]

/-- The same work items arriving in ascending order across two change records. -/
def ascendingResponse : List ChangesetInfo :=
  [ changeset 1 [workItem 10 "Fix bug"], changeset 2 [workItem 11 "Add feature"] ]

/-! ## Sample worlds -/

/-- Settings with every request key set and the default output path. -/
def sampleSettings (key : String) : String :=
  if key = "tfsrequest.serviceurl" then "http://localhost:3000/changesets"
  else if key = "tfsrequest.tfsurl" then "http://tfs:8080/tfs"
  else if key = "tfsrequest.projecturl" then "$/Project"
  else if key = "tfsrequest.user" then "builder"
  else if key = "tfsrequest.password" then "s3cret"
  else if key = "tfsrequest.startdate" then "2017-01-01"
  else if key = "tfsrequest.enddate" then "2017-02-01"
  else if key = "savetofile" then "changesets.html"
  else ""

/-- A JSON text of the request, field by field in declaration order. -/
def sampleEncode (r : TfsRequest) : String :=
  "\x7b\"TFSUrl\":\"" ++ r.TfsUrl ++ "\",\"TeamProjectUrl\":\"" ++ r.ProjectUrl
    ++ "\",\"TFSUserName\":\"" ++ r.UserName ++ "\",\"TFSPassword\":\"" ++ r.Password
    ++ "\",\"StartDate\":\"" ++ r.StartDate ++ "\",\"EndDate\":\"" ++ r.EndDate ++ "\"\x7d\n"

/-- A world in which every call succeeds and the service answers with `retval`. -/
def workingWorld (retval : List ChangesetInfo) : World :=
  { flagsExit := none
    readInConfig := none
    getString := sampleSettings
    encode := fun r => .ok (sampleEncode r)
    post := fun _ _ _ => { res := some "response body", err := none }
    decode := fun _ => .ok retval
    create := fun _ => none }

/-- A world in which the service cannot be reached: `http.Post` returns a `nil` response
and an error. -/
def unreachableWorld : World :=
  { workingWorld [] with
    post := fun _ _ _ => { res := none, err := some "dial tcp: connection refused" } }

/-- A world without a readable config file. -/
def noConfigWorld : World :=
  { workingWorld [] with readInConfig := some "Config File Not Found" }

/-- The event is a log line that starts with the fatal mark `[FATAL]`. -/
def isFatalLog : Event → Bool
  | .log msg => "[FATAL]".data.isPrefixOf msg.data
  | _ => false

/-- The event is a network call or touches the output file. -/
def isNetworkOrFile : Event → Bool
  | .log _ => false
  | _ => true

/-! ## Facts about the report map -/

theorem assignWorkItems_nil (m : GoMap) : assignWorkItems m [] = m := rfl

theorem assignWorkItems_cons (m : GoMap) (w : WorkItem) (ws : List WorkItem) :
    assignWorkItems m (w :: ws) = assignWorkItems (m.assign w.Id w.Title) ws := rfl

theorem assignWorkItems_append (m : GoMap) (xs ys : List WorkItem) :
    assignWorkItems m (xs ++ ys) = assignWorkItems (assignWorkItems m xs) ys := by
  simp [assignWorkItems, List.foldl_append]

/-- The nested loops of lines 91-95 are one pass over the traversal. -/
theorem foldl_assignWorkItems (retval : List ChangesetInfo) (m : GoMap) :
    retval.foldl (fun m c => assignWorkItems m c.WorkItems) m
      = assignWorkItems m (traversal retval) := by
  induction retval generalizing m with
  | nil => rfl
  | cons c cs ih =>
    rw [List.foldl_cons, ih]
    simp [traversal, List.flatMap_cons, assignWorkItems_append]

theorem reportwi_eq_traversal (retval : List ChangesetInfo) :
    reportwi retval = assignWorkItems GoMap.make (traversal retval) :=
  foldl_assignWorkItems retval GoMap.make

theorem get_assign_self (m : GoMap) (k : Int) (v : String) :
    (m.assign k v).get k = some v := by
  simp [GoMap.assign, GoMap.get]

theorem get_assign_ne (m : GoMap) {k k' : Int} (v : String) (h : k ≠ k') :
    (m.assign k' v).get k = m.get k := by
  simp [GoMap.assign, GoMap.get, AList.lookup_insert_ne h]

/-- Work items with other identifiers leave the entry of `k` alone. -/
theorem get_assignWorkItems_of_ne (ws : List WorkItem) (m : GoMap) (k : Int)
    (h : ∀ x ∈ ws, x.Id ≠ k) : (assignWorkItems m ws).get k = m.get k := by
  induction ws generalizing m with
  | nil => rfl
  | cons w ws ih =>
    rw [assignWorkItems_cons, ih _ (fun x hx => h x (List.mem_cons_of_mem _ hx))]
    exact get_assign_ne m w.Title (fun e => h w (List.mem_cons_self _ _) e.symm)

theorem get_assignWorkItems_last (m : GoMap) (pre post : List WorkItem) (w : WorkItem)
    (hlast : ∀ x ∈ post, x.Id ≠ w.Id) :
    (assignWorkItems m (pre ++ w :: post)).get w.Id = some w.Title := by
  rw [assignWorkItems_append, assignWorkItems_cons, get_assignWorkItems_of_ne post _ _ hlast]
  exact get_assign_self _ _ _

theorem mem_assignWorkItems (ws : List WorkItem) (m : GoMap) (k : Int) :
    k ∈ assignWorkItems m ws ↔ k ∈ m ∨ k ∈ ws.map (fun w => w.Id) := by
  induction ws generalizing m with
  | nil => simp [assignWorkItems_nil]
  | cons w ws ih =>
    rw [assignWorkItems_cons, ih]
    simp only [GoMap.assign, AList.mem_insert, List.map_cons, List.mem_cons]
    tauto

/-- The keys of the report map are the identifiers of the response. -/
theorem mem_reportwi (retval : List ChangesetInfo) (k : Int) :
    k ∈ reportwi retval ↔ k ∈ (traversal retval).map (fun w => w.Id) := by
  rw [reportwi_eq_traversal, mem_assignWorkItems]
  simp [GoMap.make]

/-- Every identifier of a list of work items has a last occurrence. -/
theorem exists_last_occurrence (ws : List WorkItem) (k : Int)
    (h : k ∈ ws.map (fun w => w.Id)) :
    ∃ pre w post, ws = pre ++ w :: post ∧ w.Id = k ∧ ∀ x ∈ post, x.Id ≠ k := by
  induction ws with
  | nil => simp at h
  | cons a ws ih =>
    by_cases hk : k ∈ ws.map (fun w => w.Id)
    · obtain ⟨pre, w, post, rfl, hw, hpost⟩ := ih hk
      exact ⟨a :: pre, w, post, rfl, hw, hpost⟩
    · have ha : a.Id = k := by
        simp only [List.map_cons, List.mem_cons] at h
        rcases h with h | h
        · exact h.symm
        · exact absurd h hk
      refine ⟨[], a, ws, rfl, ha, fun x hx e => hk ?_⟩
      exact List.mem_map.2 ⟨x, hx, e⟩

/-! ## C1 and C2: the dedup loop -/

/-- C1. For every response and every identifier that occurs in it, the report map built by
the loop of lines 89-95 maps the identifier to the title of the last work item carrying it
in traversal order: such a last work item exists, whichever work item is the last one with
the identifier gives the title, and the map holds exactly one entry for the identifier (so
of two work items sharing an identifier only the later title survives). -/
theorem reportwi_last_title (retval : List ChangesetInfo) (k : Int)
    (hk : k ∈ (traversal retval).map (fun w => w.Id)) :
    (∃ pre w post, traversal retval = pre ++ w :: post ∧ w.Id = k
        ∧ (∀ x ∈ post, x.Id ≠ k) ∧ (reportwi retval).get k = some w.Title)
      ∧ (∀ pre w post, traversal retval = pre ++ w :: post → w.Id = k
        → (∀ x ∈ post, x.Id ≠ k) → (reportwi retval).get k = some w.Title)
      ∧ (reportwi retval).keys.count k = 1
      ∧ ∀ t : String, Sigma.mk k t ∈ (reportwi retval).entries →
          (reportwi retval).get k = some t := by
  have hall : ∀ pre w post, traversal retval = pre ++ w :: post → w.Id = k
      → (∀ x ∈ post, x.Id ≠ k) → (reportwi retval).get k = some w.Title := by
    intro pre w post h hw hlast
    subst hw
    rw [reportwi_eq_traversal, h]
    exact get_assignWorkItems_last _ pre post w hlast
  have hmem : k ∈ (reportwi retval).keys := by
    rw [← AList.mem_keys, mem_reportwi]
    exact hk
  obtain ⟨pre, w, post, h, hw, hlast⟩ := exists_last_occurrence (traversal retval) k hk
  exact ⟨⟨pre, w, post, h, hw, hlast, hall pre w post h hw hlast⟩, hall,
    List.count_eq_one_of_mem (reportwi retval).keys_nodup hmem,
    fun t ht => AList.mem_lookup_iff.2 ht⟩

theorem reportwi_last_title_witness :
    (10 : Int) ∈ (traversal conflictingResponse).map (fun w => w.Id)
      ∧ traversal conflictingResponse
          = [workItem 10 "Fix bug"] ++ workItem 10 "Fix the bug" :: [workItem 11 "Add feature"]
      ∧ (reportwi conflictingResponse).get 10 = some "Fix the bug"
      ∧ (reportwi conflictingResponse).keys.count 10 = 1 :=
  ⟨by decide, by decide,
    (reportwi_last_title conflictingResponse 10 (by decide)).2.1
      [workItem 10 "Fix bug"] (workItem 10 "Fix the bug") [workItem 11 "Add feature"]
      (by decide) rfl (by decide),
    (reportwi_last_title conflictingResponse 10 (by decide)).2.2.1⟩

/-- C2. The key set of the report map is exactly the set of identifiers occurring in the
response, so a response with K distinct identifiers gives a map with exactly K entries (and
never more than the N work-item entries of the response); the two-changeset example with
identifiers 10, 10, 11 gives the 2-entry map 10 to "Fix bug", 11 to "Add feature". -/
theorem reportwi_len_eq_distinct_ids :
    (∀ retval : List ChangesetInfo,
        (∀ k : Int, k ∈ (reportwi retval).keys ↔ k ∈ (traversal retval).map (fun w => w.Id))
      ∧ (reportwi retval).len = ((traversal retval).map (fun w => w.Id)).toFinset.card
      ∧ (reportwi retval).len ≤ (traversal retval).length)
    ∧ ((traversal exampleResponse).map (fun w => w.Id) = [10, 10, 11]
      ∧ (reportwi exampleResponse).len = 2
      ∧ (reportwi exampleResponse).get 10 = some "Fix bug"
      ∧ (reportwi exampleResponse).get 11 = some "Add feature") := by
  refine ⟨fun retval => ?_, by decide, by decide, by decide, by decide⟩
  have hkeys : ∀ k : Int,
      k ∈ (reportwi retval).keys ↔ k ∈ (traversal retval).map (fun w => w.Id) :=
    fun k => by rw [← AList.mem_keys, mem_reportwi]
  have hlen : (reportwi retval).len = (reportwi retval).keys.length := by
    simp [GoMap.len, AList.keys, List.keys]
  have hcard : (reportwi retval).len
      = ((traversal retval).map (fun w => w.Id)).toFinset.card := by
    rw [hlen, ← List.toFinset_card_of_nodup (reportwi retval).keys_nodup]
    congr 1
    ext k
    simp only [List.mem_toFinset]
    exact hkeys k
  refine ⟨hkeys, hcard, ?_⟩
  rw [hcard]
  calc ((traversal retval).map (fun w => w.Id)).toFinset.card
      ≤ ((traversal retval).map (fun w => w.Id)).length := List.toFinset_card_le _
    _ = (traversal retval).length := List.length_map _ _

/-! ## Facts about the template -/

theorem htmlReplacer_of_unlisted (l : List Char)
    (h : ∀ c ∈ l, htmlReplacementTable c = none) : htmlReplacer l = l := by
  induction l with
  | nil => rfl
  | cons c cs ih =>
    have hc := h c (List.mem_cons_self _ _)
    simp only [htmlReplacer, hc]
    rw [ih (fun x hx => h x (List.mem_cons_of_mem _ hx))]
    rfl

/-- A string without any character of the replacement table is escaped to itself. -/
theorem htmlEscaper_of_unlisted (s : String)
    (h : ∀ c ∈ s.data, htmlReplacementTable c = none) : htmlEscaper s = s := by
  apply String.ext
  exact htmlReplacer_of_unlisted s.data h

theorem htmlReplacementTable_digitChar (n : Nat) :
    htmlReplacementTable (Nat.digitChar (n % 10)) = none := by
  have h : n % 10 < 10 := Nat.mod_lt _ (by decide)
  interval_cases n % 10 <;> decide

theorem toDigitsCore_unlisted (fuel n : Nat) (ds : List Char)
    (h : ∀ c ∈ ds, htmlReplacementTable c = none) :
    ∀ c ∈ Nat.toDigitsCore 10 fuel n ds, htmlReplacementTable c = none := by
  induction fuel generalizing n ds with
  | zero => simpa [Nat.toDigitsCore] using h
  | succ fuel ih =>
    have hcons : ∀ c ∈ Nat.digitChar (n % 10) :: ds, htmlReplacementTable c = none := by
      intro c hc
      rcases List.mem_cons.1 hc with rfl | hc
      · exact htmlReplacementTable_digitChar n
      · exact h c hc
    simp only [Nat.toDigitsCore]
    split
    · exact hcons
    · exact ih _ _ hcons

theorem repr_unlisted (n : Nat) : ∀ c ∈ (Nat.repr n).data, htmlReplacementTable c = none := by
  simp only [Nat.repr, Nat.toDigits, List.asString]
  exact toDigitsCore_unlisted _ _ [] (by simp)

/-- The decimal text of an identifier passes the escaper unchanged. -/
theorem htmlEscaper_formatInt (k : Int) : htmlEscaper (formatInt k) = formatInt k := by
  apply htmlEscaper_of_unlisted
  cases k with
  | ofNat n => exact repr_unlisted n
  | negSucc n =>
    intro c hc
    simp only [formatInt, String.data_append, List.mem_append] at hc
    rcases hc with hc | hc
    · have : c = '-' := by simpa using hc
      subst this
      decide
    · exact repr_unlisted _ c hc

/-- One pass of the range body writes the block of the entry. -/
theorem execBody_tfsInfo (e : Sigma fun _ : Int => String) :
    execBody e.1 e.2
        [ .text "\n\t<li>TFS ", .key, .text " - ", .value, .text "</li>\n" ]
      = entryBlock e := by
  apply String.ext
  simp [execBody, execBodyNode, entryBlock, listItem, htmlEscaper_formatInt]

theorem execEntries_tfsInfo (es : List (Sigma fun _ : Int => String)) :
    execEntries [ .text "\n\t<li>TFS ", .key, .text " - ", .value, .text "</li>\n" ] es
      = concat (es.map entryBlock) := by
  induction es with
  | nil => rfl
  | cons e es ih =>
    simp only [execEntries, ih, execBody_tfsInfo, List.map_cons, concat, List.foldr_cons]

/-- The text written by the fixed template: a newline, then one block per entry in range
order. -/
theorem Execute_tfsInfoTemplate (m : GoMap) :
    Execute tfsInfoTemplate m = "\n" ++ concat ((sortedEntries m).map entryBlock) := by
  simp only [tfsInfoTemplate, Execute, execNode, execEntries_tfsInfo, String.append_empty]

theorem concat_append (xs ys : List String) : concat (xs ++ ys) = concat xs ++ concat ys := by
  induction xs with
  | nil => simp [concat]
  | cons x xs ih =>
    simp only [concat] at ih
    simp only [concat, List.cons_append, List.foldr_cons, ih, String.append_assoc]

theorem concat_cons (x : String) (xs : List String) : concat (x :: xs) = x ++ concat xs := rfl

theorem sortedEntries_perm (m : GoMap) : (sortedEntries m).Perm m.entries :=
  List.perm_insertionSort _ _

theorem sortedEntries_length (m : GoMap) : (sortedEntries m).length = m.len :=
  (sortedEntries_perm m).length_eq

theorem mem_sortedEntries (m : GoMap) (e : Sigma fun _ : Int => String) :
    e ∈ sortedEntries m ↔ e ∈ m.entries :=
  (sortedEntries_perm m).mem_iff

/-- The range order is strictly ascending in the key. -/
theorem sortedEntries_pairwise_lt (m : GoMap) :
    (sortedEntries m).Pairwise (fun a b => a.1 < b.1) := by
  haveI : IsTotal (Sigma fun _ : Int => String) (fun a b => a.1 ≤ b.1) :=
    ⟨fun a b => le_total a.1 b.1⟩
  haveI : IsTrans (Sigma fun _ : Int => String) (fun a b => a.1 ≤ b.1) :=
    ⟨fun a b c hab hbc => le_trans hab hbc⟩
  have hle : (sortedEntries m).Pairwise (fun a b => a.1 ≤ b.1) :=
    List.sorted_insertionSort (fun a b : (Sigma fun _ : Int => String) => a.1 ≤ b.1) m.entries
  have hnd : (sortedEntries m).NodupKeys :=
    (List.perm_nodupKeys (sortedEntries_perm m)).2 m.nodupKeys
  have hne : (sortedEntries m).Pairwise (fun a b => a.1 ≠ b.1) := List.nodupKeys_iff_pairwise.1 hnd
  exact (hle.and hne).imp (fun h => lt_of_le_of_ne h.1 h.2)

theorem sortedEntries_keys_sorted (m : GoMap) :
    ((sortedEntries m).map (fun e => e.1)).Sorted (fun a b => a < b) :=
  List.pairwise_map.2 (sortedEntries_pairwise_lt m)

/-- Maps with the same lookups are ranged over in the same order with the same values. -/
theorem sortedEntries_congr (m₁ m₂ : GoMap) (h : ∀ k : Int, m₁.get k = m₂.get k) :
    sortedEntries m₁ = sortedEntries m₂ := by
  haveI : IsAntisymm (Sigma fun _ : Int => String) (fun a b => a.1 < b.1) :=
    ⟨fun a b hab hba => absurd hab (not_lt.2 (le_of_lt hba))⟩
  have hperm : m₁.entries.Perm m₂.entries :=
    List.lookup_ext m₁.nodupKeys m₂.nodupKeys (fun x y => by
      have := h x
      simp only [GoMap.get, AList.lookup] at this
      rw [this])
  exact List.eq_of_perm_of_sorted
    (((sortedEntries_perm m₁).trans hperm).trans (sortedEntries_perm m₂).symm)
    (sortedEntries_pairwise_lt m₁) (sortedEntries_pairwise_lt m₂)

/-- The block of every entry of the range order occurs in the concatenation. -/
theorem contains_concat_entryBlock (es : List (Sigma fun _ : Int => String))
    (e : Sigma fun _ : Int => String) (he : e ∈ es) (pre : String) :
    Contains (pre ++ concat (es.map entryBlock)) (listItem e.1 (htmlEscaper e.2)) := by
  obtain ⟨a, b, rfl⟩ := List.append_of_mem he
  refine ⟨pre.data ++ (concat (a.map entryBlock)).data ++ "\n\t".data,
    "\n".data ++ (concat (b.map entryBlock)).data, ?_⟩
  simp [List.map_append, concat_append, concat_cons, entryBlock, List.append_assoc]

/-! ## Facts about the pipeline -/

/-- The run in which every call succeeds. -/
theorem main_of_success (w : World) (requestJSON body : String)
    (retval : List ChangesetInfo)
    (hflags : w.flagsExit = none) (hcfg : w.readInConfig = none)
    (henc : w.encode (buildRequest w.getString) = .ok requestJSON)
    (hpost : (w.post (w.getString "tfsrequest.serviceurl") "application/json"
      requestJSON).res = some body)
    (hdec : w.decode body = .ok retval)
    (hcreate : w.create (w.getString "savetofile") = none) :
    main w =
      ⟨[ .log "[INFO] Initializing configuration...",
         .log ("[INFO] Using serviceUrl: " ++ w.getString "tfsrequest.serviceurl"),
         .log "[INFO] Calling service...",
         .post (w.getString "tfsrequest.serviceurl") "application/json" requestJSON,
         .log ("[INFO] Got " ++ Nat.repr retval.length ++
           " items back.  Formatting using template..."),
         .log ("[INFO] Saving to file: " ++ w.getString "savetofile"),
         .create (w.getString "savetofile"),
         .write (w.getString "savetofile") (render retval),
         .sync (w.getString "savetofile"),
         .closeFile (w.getString "savetofile"),
         .closeBody ], .returned⟩ := by
  simp [main, init_config, hflags, hcfg, henc, hpost, hdec, formatAndSave, parseTFSInfo,
    saveToFile, hcreate, render]

/-- A decode failure is logged with the fatal mark and ends the run before the template. -/
theorem main_of_decode_failure (w : World) (requestJSON body err : String)
    (hflags : w.flagsExit = none) (hcfg : w.readInConfig = none)
    (henc : w.encode (buildRequest w.getString) = .ok requestJSON)
    (hpost : (w.post (w.getString "tfsrequest.serviceurl") "application/json"
      requestJSON).res = some body)
    (hdec : w.decode body = .error err) :
    main w =
      ⟨[ .log "[INFO] Initializing configuration...",
         .log ("[INFO] Using serviceUrl: " ++ w.getString "tfsrequest.serviceurl"),
         .log "[INFO] Calling service...",
         .post (w.getString "tfsrequest.serviceurl") "application/json" requestJSON,
         .log ("[FATAL] " ++ err),
         .closeBody ], .logPanic ("[FATAL] " ++ err ++ "\n")⟩ := by
  simp [main, init_config, hflags, hcfg, henc, hpost, hdec]

/-- A nil response ends the run at line 79 with the runtime panic; nothing more is logged. -/
theorem main_of_nil_response (w : World) (requestJSON : String)
    (hflags : w.flagsExit = none) (hcfg : w.readInConfig = none)
    (henc : w.encode (buildRequest w.getString) = .ok requestJSON)
    (hpost : (w.post (w.getString "tfsrequest.serviceurl") "application/json"
      requestJSON).res = none) :
    main w =
      ⟨[ .log "[INFO] Initializing configuration...",
         .log ("[INFO] Using serviceUrl: " ++ w.getString "tfsrequest.serviceurl"),
         .log "[INFO] Calling service...",
         .post (w.getString "tfsrequest.serviceurl") "application/json" requestJSON ],
        .nilDereference⟩ := by
  simp [main, init_config, hflags, hcfg, henc, hpost]

/-! ## C3, C4, C5, C6 and C10: the rendered text -/

/-- C3, as stated, fails: for the one-entry map of a response with the single work item 10
"Fix bug" the template writes two empty lines before the entry line, so the text is not one
leading blank line followed by exactly one line. -/
theorem single_item_layout_counterexample :
    (reportwi singleItemResponse).len = 1
      ∧ Execute tfsInfoTemplate (reportwi singleItemResponse)
          = "\n\n\t<li>TFS 10 - Fix bug</li>\n"
      ∧ linesOf (Execute tfsInfoTemplate (reportwi singleItemResponse)).data
          = [[], [], "\t<li>TFS 10 - Fix bug</li>".data]
      ∧ ¬ OneBlankThenLines (reportwi singleItemResponse).len
          (Execute tfsInfoTemplate (reportwi singleItemResponse)) := by
  decide

/-- C3, amended. For every report map with K entries the text written by the fixed template
is one leading newline followed by exactly K blocks and nothing else, one block per map
entry, each block being a newline, a tab, the list entry of that entry and a newline (so
every entry line is preceded by an empty line of its own). -/
theorem Execute_layout (m : GoMap) :
    Execute tfsInfoTemplate m = "\n" ++ concat ((sortedEntries m).map entryBlock)
      ∧ ((sortedEntries m).map entryBlock).length = m.len
      ∧ (sortedEntries m).Perm m.entries
      ∧ ∀ e : (Sigma fun _ : Int => String),
          entryBlock e = "\n" ++ ("\t" ++ listItem e.1 (htmlEscaper e.2)) ++ "\n" := by
  refine ⟨Execute_tfsInfoTemplate m, ?_, sortedEntries_perm m, fun e => ?_⟩
  · rw [List.length_map, sortedEntries_length]
  · apply String.ext
    simp [entryBlock]

/-- C4, as stated, fails: the map of a response with work item 7 titled `a<b` holds that
title, and the rendered text does not contain the list entry with the title as stored; the
angle bracket is written as an entity. -/
theorem markup_title_counterexample :
    (reportwi markupResponse).get 7 = some "a<b"
      ∧ Execute tfsInfoTemplate (reportwi markupResponse)
          = "\n\n\t<li>TFS 7 - a&lt;b</li>\n"
      ∧ ¬ Contains (Execute tfsInfoTemplate (reportwi markupResponse)) (listItem 7 "a<b") := by
  decide

/-- C4, amended. For every report map and every entry (id, title) in it, the rendered text
contains the list entry `<li>TFS `, the decimal identifier, ` - `, the title as escaped by
the HTML escaper of the template package, `</li>`; a title without any of the characters of
the replacement table is written exactly as stored. -/
theorem Execute_contains_listItem (m : GoMap) (k : Int) (v : String)
    (h : m.get k = some v) :
    Contains (Execute tfsInfoTemplate m) (listItem k (htmlEscaper v))
      ∧ ((∀ c ∈ v.data, htmlReplacementTable c = none) →
          Contains (Execute tfsInfoTemplate m) (listItem k v)) := by
  have hmem : Sigma.mk k v ∈ sortedEntries m :=
    (mem_sortedEntries m _).2 (AList.mem_lookup_iff.1 h)
  have hc : Contains (Execute tfsInfoTemplate m) (listItem k (htmlEscaper v)) := by
    rw [Execute_tfsInfoTemplate]
    exact contains_concat_entryBlock (sortedEntries m) ⟨k, v⟩ hmem "\n"
  refine ⟨hc, fun hv => ?_⟩
  rw [htmlEscaper_of_unlisted v hv] at hc
  exact hc

theorem Execute_contains_listItem_witness :
    (reportwi exampleResponse).get 11 = some "Add feature"
      ∧ Contains (Execute tfsInfoTemplate (reportwi exampleResponse))
          (listItem 11 (htmlEscaper "Add feature"))
      ∧ ((∀ c ∈ "Add feature".data, htmlReplacementTable c = none) →
          Contains (Execute tfsInfoTemplate (reportwi exampleResponse))
            (listItem 11 "Add feature")) :=
  ⟨by decide, Execute_contains_listItem (reportwi exampleResponse) 11 "Add feature" (by decide)⟩

/-- C5. For the empty response array the report map is empty and the rendered text is
exactly one newline, without any `<li>`; in a run where every call succeeds and the service
answers with the empty array, that text is what is written to the output file, and it is the
only write. -/
theorem empty_response_output (w : World) (requestJSON body : String)
    (hflags : w.flagsExit = none) (hcfg : w.readInConfig = none)
    (henc : w.encode (buildRequest w.getString) = .ok requestJSON)
    (hpost : (w.post (w.getString "tfsrequest.serviceurl") "application/json"
      requestJSON).res = some body)
    (hdec : w.decode body = .ok [])
    (hcreate : w.create (w.getString "savetofile") = none) :
    reportwi [] = GoMap.make
      ∧ (reportwi []).len = 0
      ∧ render [] = "\n"
      ∧ ¬ Contains (render []) "<li>"
      ∧ (main w).outcome = .returned
      ∧ ∀ path text : String,
          Event.write path text ∈ (main w).events ↔
            path = w.getString "savetofile" ∧ text = "\n" := by
  have hrender : render [] = "\n" := by decide
  refine ⟨rfl, rfl, hrender, by decide, ?_, ?_⟩
  · rw [main_of_success w requestJSON body [] hflags hcfg henc hpost hdec hcreate]
  · intro path text
    rw [main_of_success w requestJSON body [] hflags hcfg henc hpost hdec hcreate, hrender]
    simp

theorem empty_response_output_witness :
    reportwi [] = GoMap.make
      ∧ (reportwi []).len = 0
      ∧ render [] = "\n"
      ∧ ¬ Contains (render []) "<li>"
      ∧ (main (workingWorld [])).outcome = .returned
      ∧ ∀ path text : String,
          Event.write path text ∈ (main (workingWorld [])).events ↔
            path = (workingWorld []).getString "savetofile" ∧ text = "\n" :=
  empty_response_output (workingWorld [])
    (sampleEncode (buildRequest sampleSettings)) "response body" rfl rfl rfl rfl rfl rfl

/-- C6. The rendered text is a function of the report map alone: two maps with the same
lookups (in particular one map rendered twice, or the maps of two responses that bring the
same work items in a different order) give the same text, whatever the order in which their
entries were inserted. -/
theorem Execute_congr (m₁ m₂ : GoMap) (h : ∀ k : Int, m₁.get k = m₂.get k) :
    Execute tfsInfoTemplate m₁ = Execute tfsInfoTemplate m₂ := by
  rw [Execute_tfsInfoTemplate, Execute_tfsInfoTemplate, sortedEntries_congr m₁ m₂ h]

theorem Execute_congr_witness :
    (reportwi descendingResponse).entries ≠ (reportwi ascendingResponse).entries
      ∧ Execute tfsInfoTemplate (reportwi descendingResponse)
          = Execute tfsInfoTemplate (reportwi ascendingResponse) :=
  ⟨by decide,
    Execute_congr (reportwi descendingResponse) (reportwi ascendingResponse)
      (fun _ => AList.perm_lookup (by decide))⟩

/-- C10. For every report map the blocks of the rendered text follow the entries in
strictly ascending order of identifier, whatever the order of arrival; the map built from
11 "Add feature" followed by 10 "Fix bug" renders the entry of 10 before the entry of 11,
as does the map built from the same items in the other order. -/
theorem Execute_ascending_ids :
    (∀ m : GoMap,
        Execute tfsInfoTemplate m = "\n" ++ concat ((sortedEntries m).map entryBlock)
      ∧ ((sortedEntries m).map (fun e => e.1)).Sorted (fun a b => a < b)
      ∧ (sortedEntries m).Perm m.entries)
    ∧ (traversal descendingResponse = [workItem 11 "Add feature", workItem 10 "Fix bug"]
      ∧ render descendingResponse
          = "\n\n\t<li>TFS 10 - Fix bug</li>\n\n\t<li>TFS 11 - Add feature</li>\n"
      ∧ render ascendingResponse
          = "\n\n\t<li>TFS 10 - Fix bug</li>\n\n\t<li>TFS 11 - Add feature</li>\n") :=
  ⟨fun m => ⟨Execute_tfsInfoTemplate m, sortedEntries_keys_sorted m, sortedEntries_perm m⟩,
    by decide, by decide, by decide⟩

/-! ## C7, C8 and C9: request and failures -/

/-- Whatever `main` posts is the encoding of the request built from the settings, sent to
the configured service address as JSON. -/
theorem post_event_of_main (w : World) (url contentType body : String)
    (h : Event.post url contentType body ∈ (main w).events) :
    w.encode (buildRequest w.getString) = .ok body
      ∧ url = w.getString "tfsrequest.serviceurl" ∧ contentType = "application/json" := by
  unfold main init_config at h
  cases hf : w.flagsExit <;> simp only [hf] at h
  · cases hc : w.readInConfig <;> simp only [hc] at h
    · cases he : w.encode (buildRequest w.getString) <;> simp only [he] at h
      · simp at h
      · rename_i requestJSON
        cases hp : (w.post (w.getString "tfsrequest.serviceurl") "application/json"
          requestJSON).res <;> simp only [hp] at h
        · simp at h
          simp [h]
        · rename_i resBody
          cases hd : w.decode resBody <;> simp only [hd] at h
          · simp at h
            simp [h]
          · simp only [formatAndSave, parseTFSInfo, saveToFile] at h
            cases hcr : w.create (w.getString "savetofile") <;> simp only [hcr] at h
            · simp at h
              simp [h]
            · simp at h
              simp [h]
    · simp at h
  · simp at h

/-- C7. The request that `main` builds and posts has its six fields equal, verbatim, to the
settings `tfsrequest.tfsurl`, `tfsrequest.projecturl`, `tfsrequest.user`,
`tfsrequest.password`, `tfsrequest.startdate` and `tfsrequest.enddate`; the service address
and the output path are not part of it (changing them changes no field), and the body of
every post of a run is the encoding of exactly this request. -/
theorem request_fields_verbatim (w : World) (url contentType body : String)
    (h : Event.post url contentType body ∈ (main w).events) :
    w.encode (buildRequest w.getString) = .ok body
      ∧ (buildRequest w.getString).TfsUrl = w.getString "tfsrequest.tfsurl"
      ∧ (buildRequest w.getString).ProjectUrl = w.getString "tfsrequest.projecturl"
      ∧ (buildRequest w.getString).UserName = w.getString "tfsrequest.user"
      ∧ (buildRequest w.getString).Password = w.getString "tfsrequest.password"
      ∧ (buildRequest w.getString).StartDate = w.getString "tfsrequest.startdate"
      ∧ (buildRequest w.getString).EndDate = w.getString "tfsrequest.enddate"
      ∧ ∀ serviceurl savetofile : String,
          buildRequest (Function.update
              (Function.update w.getString "tfsrequest.serviceurl" serviceurl)
              "savetofile" savetofile)
            = buildRequest w.getString := by
  refine ⟨(post_event_of_main w url contentType body h).1, rfl, rfl, rfl, rfl, rfl, rfl, ?_⟩
  intro serviceurl savetofile
  simp [buildRequest, Function.update]

theorem request_fields_verbatim_witness :
    Event.post "http://localhost:3000/changesets" "application/json"
        (sampleEncode (buildRequest sampleSettings))
        ∈ (main (workingWorld exampleResponse)).events
      ∧ buildRequest sampleSettings
          = { TfsUrl := "http://tfs:8080/tfs", ProjectUrl := "$/Project",
              UserName := "builder", Password := "s3cret",
              StartDate := "2017-01-01", EndDate := "2017-02-01" }
      ∧ (workingWorld exampleResponse).encode
            (buildRequest (workingWorld exampleResponse).getString)
          = .ok (sampleEncode (buildRequest sampleSettings)) :=
  ⟨by decide, by decide,
    (request_fields_verbatim (workingWorld exampleResponse)
      "http://localhost:3000/changesets" "application/json"
      (sampleEncode (buildRequest sampleSettings)) (by decide)).1⟩

/-- C8. When reading the config file fails, `main` ends inside `init_config`: the run is
the run of `init_config`, it does not return normally, and none of its events is a network
call or a file operation; if the command line was accepted, the run consists of the two log
lines of `init_config` and the panic raised by its `log.Panicf`. -/
theorem config_failure_stops_in_init_config (w : World) (err : String)
    (hcfg : w.readInConfig = some err) :
    main w = init_config w
      ∧ (main w).outcome ≠ .returned
      ∧ (∀ e ∈ (main w).events, isNetworkOrFile e = false)
      ∧ (w.flagsExit = none →
          main w =
            ⟨[ .log "[INFO] Initializing configuration...",
               .log ("[FATAL] There was a problem with your config file: " ++ err) ],
              .logPanic ("[FATAL] There was a problem with your config file: " ++ err)⟩) := by
  cases hf : w.flagsExit with
  | none =>
    have hmain : main w =
        ⟨[ .log "[INFO] Initializing configuration...",
           .log ("[FATAL] There was a problem with your config file: " ++ err) ],
          .logPanic ("[FATAL] There was a problem with your config file: " ++ err)⟩ := by
      simp [main, init_config, hf, hcfg]
    refine ⟨?_, ?_, ?_, fun _ => hmain⟩
    · rw [hmain]
      simp [init_config, hf, hcfg]
    · rw [hmain]
      simp
    · rw [hmain]
      simp [isNetworkOrFile]
  | some code =>
    have hmain : main w = ⟨[ .log "[INFO] Initializing configuration..." ], .exited code⟩ := by
      simp [main, init_config, hf]
    refine ⟨?_, ?_, ?_, fun h => by simp at h⟩
    · rw [hmain]
      simp [init_config, hf]
    · rw [hmain]
      simp
    · rw [hmain]
      simp [isNetworkOrFile]

theorem config_failure_stops_in_init_config_witness :
    noConfigWorld.readInConfig = some "Config File Not Found"
      ∧ main noConfigWorld = init_config noConfigWorld
      ∧ (main noConfigWorld).outcome ≠ .returned
      ∧ (∀ e ∈ (main noConfigWorld).events, isNetworkOrFile e = false)
      ∧ (noConfigWorld.flagsExit = none →
          main noConfigWorld =
            ⟨[ .log "[INFO] Initializing configuration...",
               .log ("[FATAL] There was a problem with your config file: "
                 ++ "Config File Not Found") ],
              .logPanic ("[FATAL] There was a problem with your config file: "
                ++ "Config File Not Found")⟩) :=
  ⟨rfl, config_failure_stops_in_init_config noConfigWorld "Config File Not Found" rfl⟩

/-- No log line of a run that ends on a nil response carries the fatal mark. -/
theorem nil_response_no_fatal_log (w : World) (requestJSON : String)
    (hflags : w.flagsExit = none) (hcfg : w.readInConfig = none)
    (henc : w.encode (buildRequest w.getString) = .ok requestJSON)
    (hpost : (w.post (w.getString "tfsrequest.serviceurl") "application/json"
      requestJSON).res = none) :
    (main w).outcome = .nilDereference ∧ ∀ e ∈ (main w).events, isFatalLog e = false := by
  have hlog : ∀ x : String,
      isFatalLog (.log ("[INFO] Using serviceUrl: " ++ x)) = false := fun _ => rfl
  rw [main_of_nil_response w requestJSON hflags hcfg henc hpost]
  refine ⟨rfl, ?_⟩
  intro e he
  simp only [List.mem_cons, List.mem_singleton, List.not_mem_nil, or_false] at he
  rcases he with rfl | rfl | rfl | rfl
  · rfl
  · exact hlog _
  · rfl
  · rfl

/-- C9, evaluated where the code departs from it: when the service cannot be reached,
`http.Post` returns a nil response and an error; the run posts, logs no line with the fatal
mark and ends with the runtime panic of the nil dereference at line 79, not with the panic
of a `log.Panicf`. -/
theorem transport_failure_run :
    (unreachableWorld.post "http://localhost:3000/changesets" "application/json"
        (sampleEncode (buildRequest sampleSettings)))
        = { res := none, err := some "dial tcp: connection refused" }
      ∧ main unreachableWorld =
          ⟨[ .log "[INFO] Initializing configuration...",
             .log "[INFO] Using serviceUrl: http://localhost:3000/changesets",
             .log "[INFO] Calling service...",
             .post "http://localhost:3000/changesets" "application/json"
               (sampleEncode (buildRequest sampleSettings)) ],
            .nilDereference⟩
      ∧ ∀ e ∈ (main unreachableWorld).events, isFatalLog e = false := by
  decide

end TfsInfo2Html
